import Mathlib

/-!
Verification development for the Qurio study-aid application.

The definitions below are shallow embeddings of the Python source under
`generator/` and `QuestionGen/generator/`: strings are `List Char`,
Python's `str.replace` is `replaceAll`, the ReportLab "story" built by the
PDF generators is a list of abstract blocks, and the Gemini reply handling
is modelled as a pure function of the reply text with the JSON parsing of
`json.loads` embedded as an executable recursive-descent parser.
-/

namespace Qurio

/-- Worker for `replaceAll`: `skip` counts characters still to be
consumed silently because they belong to an occurrence of the pattern
whose replacement has already been emitted. -/
def replaceAllAux (pat val : List Char) : Nat → List Char → List Char
  | _, [] => []
  | 0, a :: s =>
    if pat ≠ [] ∧ pat.isPrefixOf (a :: s) then
      val ++ replaceAllAux pat val (pat.length - 1) s
    else
      a :: replaceAllAux pat val 0 s
  | k + 1, _ :: s => replaceAllAux pat val k s

/-- Model of Python's `str.replace(pat, val)`: scan left to right and
replace every non-overlapping occurrence of `pat` by `val`.  An empty
pattern never matches (the source only uses non-empty patterns). -/
def replaceAll (pat val s : List Char) : List Char :=
  replaceAllAux pat val 0 s

/-!
`sanitize_text_for_pdf` (QuestionGen/generator/utils.py).  The Python
function walks a literal dict of replacements in insertion order and
applies `text.replace(k, v)` for each entry.  The table below lists the
entries in exactly the source order, split in three runs (the split is
only for the proofs; `replacements` is their concatenation).
-/

/-- Source dict entries up to and including the bracket rules:
subscripts, superscript signs, and the lone bra-ket glyphs. -/
def replacementsHead : List (String × String) :=
  [ ("₀", "_0"), ("₁", "_1"), ("₂", "_2"), ("₃", "_3"), ("₄", "_4"),
    ("₅", "_5"), ("₆", "_6"), ("₇", "_7"), ("₈", "_8"), ("₉", "_9"),
    ("⁺", "+"), ("⁻", "-"),
    ("⟩", ">"), ("⟨", "<") ]

/-- The two multi-character bra-ket entries of the source dict. -/
def replacementsBraKet : List (String × String) :=
  [ ("|ψ⟩", "|psi>"), ("|φ⟩", "|phi>") ]

/-- The remaining entries of the source dict, in source order. -/
def replacementsTail : List (String × String) :=
  [ ("⊗", " (tensor) "), ("⊕", " (xor) "),
    ("ψ", "psi"), ("Ψ", "Psi"),
    ("φ", "phi"), ("Φ", "Phi"),
    ("α", "alpha"), ("β", "beta"), ("γ", "gamma"), ("δ", "delta"),
    ("ε", "epsilon"), ("θ", "theta"), ("λ", "lambda"), ("μ", "mu"),
    ("σ", "sigma"), ("ω", "omega"), ("π", "pi"),
    ("√", "sqrt"), ("∛", "cbrt"),
    ("∑", "Sum"), ("∫", "Int"), ("∂", "d"),
    ("∇", "nabla"), ("∞", "infinity"),
    ("≠", "!="), ("≤", "<="), ("≥", ">="), ("≈", "~="), ("≡", "=="),
    ("±", "+/-"), ("×", "x"), ("÷", "/"),
    ("→", "->"), ("←", "<-"), ("↔", "<->"), ("⇒", "=>"), ("⇐", "<="), ("⇔", "<=>"),
    ("½", "1/2"), ("⅓", "1/3"), ("¼", "1/4"), ("⅔", "2/3"), ("¾", "3/4") ]

/-- The full replacement table of `sanitize_text_for_pdf`, in the order
the Python dict iterates it. -/
def replacements : List (String × String) :=
  replacementsHead ++ replacementsBraKet ++ replacementsTail

/-- The replacement table as character lists. -/
def rules : List (List Char × List Char) :=
  replacements.map (fun r => (r.1.toList, r.2.toList))

/-- One `text.replace(k, v)` step of the source loop. -/
def sanStep (t : List Char) (r : List Char × List Char) : List Char :=
  replaceAll r.1 r.2 t

/-- `sanitize_text_for_pdf` on character lists: fold the replacement
table over the input, mirroring the source's `for`-loop of `str.replace`
calls. -/
def sanitizeChars (s : List Char) : List Char :=
  rules.foldl sanStep s

/-- `sanitize_text_for_pdf` (QuestionGen/generator/utils.py, lines 39-71). -/
def sanitize_text_for_pdf (s : String) : String :=
  ⟨sanitizeChars s.data⟩

/-- The single-character keys of the replacement dict (every key except
the two bra-ket sequences, which consist of `|`, a Greek letter key and
the `⟩` key). -/
def keyChars : List Char :=
  [ '₀', '₁', '₂', '₃', '₄', '₅', '₆', '₇', '₈', '₉', '⁺', '⁻', '⟩', '⟨',
    '⊗', '⊕', 'ψ', 'Ψ', 'φ', 'Φ', 'α', 'β', 'γ', 'δ', 'ε', 'θ', 'λ', 'μ',
    'σ', 'ω', 'π', '√', '∛', '∑', '∫', '∂', '∇', '∞', '≠', '≤', '≥', '≈',
    '≡', '±', '×', '÷', '→', '←', '↔', '⇒', '⇐', '⇔', '½', '⅓', '¼', '⅔', '¾' ]

def rulesHead : List (List Char × List Char) :=
  replacementsHead.map (fun r => (r.1.toList, r.2.toList))

def rulesBraKet : List (List Char × List Char) :=
  replacementsBraKet.map (fun r => (r.1.toList, r.2.toList))

def rulesTail : List (List Char × List Char) :=
  replacementsTail.map (fun r => (r.1.toList, r.2.toList))

/-!
Model of the JSON values produced by Python's `json.loads`, and of the
reply handling in `generate_questions_with_gemini`
(QuestionGen/generator/views.py, lines 144-163).  Integer literals parse
to `num`; literals with a fraction or exponent part, and the non-standard
`NaN`/`Infinity` tokens Python accepts by default, are kept as `fnum`
lexemes (no claim depends on float values).
-/

inductive Json where
  | null
  | bool (b : Bool)
  | num (n : Int)
  | fnum (lexeme : List Char)
  | str (s : List Char)
  | arr (items : List Json)
  | obj (fields : List (List Char × Json))

/-- Python whitespace accepted between JSON tokens. -/
def isJsonWs (c : Char) : Bool :=
  c = ' ' ∨ c = '\t' ∨ c = '\n' ∨ c = '\r'

def skipWs : List Char → List Char
  | [] => []
  | c :: s => if isJsonWs c then skipWs s else c :: s

def isJsonDigit (c : Char) : Bool := '0' ≤ c ∧ c ≤ '9'

def hexVal (c : Char) : Option Nat :=
  if '0' ≤ c ∧ c ≤ '9' then some (c.toNat - 48)
  else if 'a' ≤ c ∧ c ≤ 'f' then some (c.toNat - 87)
  else if 'A' ≤ c ∧ c ≤ 'F' then some (c.toNat - 55)
  else none

def escMap (c : Char) : Option Char :=
  if c = '"' then some '"'
  else if c = '\\' then some '\\'
  else if c = '/' then some '/'
  else if c = 'b' then some '\x08'
  else if c = 'f' then some '\x0c'
  else if c = 'n' then some '\n'
  else if c = 'r' then some '\r'
  else if c = 't' then some '\t'
  else none

def consFst (c : Char) : Option (List Char × List Char) → Option (List Char × List Char)
  | none => none
  | some p => some (c :: p.1, p.2)

/-- Body of a JSON string after the opening quote: strict mode (raw
control characters are refused).  Lone surrogates from a unicode escape,
which Python happily stores, fall outside Lean's `Char` and are kept as
U+FFFD; no claim inspects such a value. -/
def parseStringBody : List Char → Option (List Char × List Char)
  | [] => none
  | '"' :: rest => some ([], rest)
  | '\\' :: 'u' :: h1 :: h2 :: h3 :: h4 :: rest =>
    match hexVal h1, hexVal h2, hexVal h3, hexVal h4 with
    | some a, some b, some c, some d =>
      let n := ((a * 16 + b) * 16 + c) * 16 + d
      let ch := if n < 0xd800 then Char.ofNat n
                else if 0xdfff < n then Char.ofNat n
                else '�'
      consFst ch (parseStringBody rest)
    | _, _, _, _ => none
  | '\\' :: e :: rest =>
    match escMap e with
    | some ch => consFst ch (parseStringBody rest)
    | none => none
  | '\\' :: [] => none
  | c :: rest =>
    if c.toNat < 0x20 then none else consFst c (parseStringBody rest)

def natFromDigits (ds : List Char) : Nat :=
  ds.foldl (fun n c => 10 * n + (c.toNat - 48)) 0

/-- A JSON number literal: `-?(0|[1-9][0-9]*)(\.[0-9]+)?([eE][+-]?[0-9]+)?`.
Pure integer literals become `Json.num`; anything with a fraction or
exponent part becomes `Json.fnum` carrying its digits. -/
def parseNumber (s : List Char) : Option (Json × List Char) :=
  let (neg, s1) : Bool × List Char :=
    match s with
    | '-' :: t => (true, t)
    | _ => (false, s)
  let intPart : Option (List Char × List Char) :=
    match s1 with
    | '0' :: t => some (['0'], t)
    | c :: t =>
      if isJsonDigit c ∧ c ≠ '0' then
        some (c :: t.takeWhile isJsonDigit, t.dropWhile isJsonDigit)
      else none
    | [] => none
  match intPart with
  | none => none
  | some (ds, s2) =>
    let fracPart : Option (List Char × List Char) :=
      match s2 with
      | '.' :: t =>
        let fs := t.takeWhile isJsonDigit
        if fs = [] then none else some (fs, t.dropWhile isJsonDigit)
      | _ => some ([], s2)
    match fracPart with
    | none => none
    | some (fs, s3) =>
      let expPart : Option (List Char × List Char) :=
        match s3 with
        | e :: t =>
          if e = 'e' ∨ e = 'E' then
            let (t1, sgn) : List Char × List Char :=
              match t with
              | '+' :: u => (u, ['+'])
              | '-' :: u => (u, ['-'])
              | _ => (t, [])
            let es := t1.takeWhile isJsonDigit
            if es = [] then none else some (sgn ++ es, t1.dropWhile isJsonDigit)
          else some ([], s3)
        | [] => some ([], s3)
      match expPart with
      | none => none
      | some (es, s4) =>
        if fs = [] ∧ es = [] then
          let n : Int := Int.ofNat (natFromDigits ds)
          some (Json.num (if neg then -n else n), s4)
        else
          some (Json.fnum ((if neg then ['-'] else []) ++ ds ++
            (if fs = [] then [] else '.' :: fs) ++
            (if es = [] then [] else 'e' :: es)), s4)

mutual

/-- One JSON value, recursive-descent with a fuel bound (ample fuel is
supplied by `json_loads`; every recursion step consumes input). -/
def parseValue : Nat → List Char → Option (Json × List Char)
  | 0, _ => none
  | fuel + 1, s =>
    match skipWs s with
    | 'n' :: 'u' :: 'l' :: 'l' :: r => some (Json.null, r)
    | 't' :: 'r' :: 'u' :: 'e' :: r => some (Json.bool true, r)
    | 'f' :: 'a' :: 'l' :: 's' :: 'e' :: r => some (Json.bool false, r)
    | 'N' :: 'a' :: 'N' :: r => some (Json.fnum ['N', 'a', 'N'], r)
    | 'I' :: 'n' :: 'f' :: 'i' :: 'n' :: 'i' :: 't' :: 'y' :: r =>
      some (Json.fnum ['i', 'n', 'f'], r)
    | '-' :: 'I' :: 'n' :: 'f' :: 'i' :: 'n' :: 'i' :: 't' :: 'y' :: r =>
      some (Json.fnum ['-', 'i', 'n', 'f'], r)
    | '"' :: r =>
      match parseStringBody r with
      | some p => some (Json.str p.1, p.2)
      | none => none
    | '[' :: r => parseArrayStart fuel r
    | '{' :: r => parseObjStart fuel r
    | t => parseNumber t

def parseArrayStart : Nat → List Char → Option (Json × List Char)
  | 0, _ => none
  | fuel + 1, r =>
    match skipWs r with
    | ']' :: rest => some (Json.arr [], rest)
    | r' => parseArrayLoop fuel [] r'

def parseArrayLoop : Nat → List Json → List Char → Option (Json × List Char)
  | 0, _, _ => none
  | fuel + 1, acc, r =>
    match parseValue fuel r with
    | none => none
    | some (v, r2) =>
      match skipWs r2 with
      | ',' :: r3 => parseArrayLoop fuel (acc ++ [v]) r3
      | ']' :: r3 => some (Json.arr (acc ++ [v]), r3)
      | _ => none

def parseObjStart : Nat → List Char → Option (Json × List Char)
  | 0, _ => none
  | fuel + 1, r =>
    match skipWs r with
    | '}' :: rest => some (Json.obj [], rest)
    | r' => parseObjLoop fuel [] r'

def parseObjLoop : Nat → List (List Char × Json) → List Char → Option (Json × List Char)
  | 0, _, _ => none
  | fuel + 1, acc, r =>
    match skipWs r with
    | '"' :: r1 =>
      match parseStringBody r1 with
      | none => none
      | some (k, r2) =>
        match skipWs r2 with
        | ':' :: r3 =>
          match parseValue fuel r3 with
          | none => none
          | some (v, r4) =>
            match skipWs r4 with
            | ',' :: r5 => parseObjLoop fuel (acc ++ [(k, v)]) r5
            | '}' :: r5 => some (Json.obj (acc ++ [(k, v)]), r5)
            | _ => none
        | _ => none
    | _ => none

end

/-- Model of Python's `json.loads`: parse one value, allow trailing
whitespace only. -/
def json_loads (s : List Char) : Option Json :=
  match parseValue (3 * s.length + 8) s with
  | some (v, rest) => if skipWs rest = [] then some v else none
  | none => none

/-- The characters Python's `str.strip()` (and `str.isspace()`) treats
as whitespace: the ASCII controls `\t`-`\r`, the separators
`\x1c`-`\x1f`, space, NEL, NBSP, and the Unicode space characters. -/
def isPySpace (c : Char) : Bool :=
  (0x09 ≤ c.toNat ∧ c.toNat ≤ 0x0d) ∨ (0x1c ≤ c.toNat ∧ c.toNat ≤ 0x1f)
    ∨ c.toNat = 0x20 ∨ c.toNat = 0x85 ∨ c.toNat = 0xa0 ∨ c.toNat = 0x1680
    ∨ (0x2000 ≤ c.toNat ∧ c.toNat ≤ 0x200a) ∨ c.toNat = 0x2028
    ∨ c.toNat = 0x2029 ∨ c.toNat = 0x202f ∨ c.toNat = 0x205f
    ∨ c.toNat = 0x3000

/-- Python's `str.strip()`. -/
def pyStrip (s : List Char) : List Char :=
  ((s.dropWhile isPySpace).reverse.dropWhile isPySpace).reverse

def consHead (a : Char) : List (List Char) → List (List Char)
  | [] => [[a]]
  | h :: t => (a :: h) :: t

/-- Worker for `splitSeq`, with the same skip-counter device as
`replaceAllAux`. -/
def splitSeqAux (sep : List Char) : Nat → List Char → List (List Char)
  | _, [] => [[]]
  | 0, a :: s =>
    if sep ≠ [] ∧ sep.isPrefixOf (a :: s) then
      [] :: splitSeqAux sep (sep.length - 1) s
    else
      consHead a (splitSeqAux sep 0 s)
  | k + 1, _ :: s => splitSeqAux sep k s

/-- Python's `str.split(sep)` for a non-empty separator. -/
def splitSeq (sep s : List Char) : List (List Char) :=
  splitSeqAux sep 0 s

/-- The fence-stripping step of `generate_questions_with_gemini`: strip
the reply, and when it opens with a triple backtick take the first
fenced piece, dropping an optional leading `json` tag. -/
def strip_code_fences (reply : List Char) : List Char :=
  let t := pyStrip reply
  if ("```".data).isPrefixOf t then
    let inner : List Char :=
      match splitSeq "```".data t with
      | _ :: p1 :: _ => p1
      | _ => []
    let inner2 := if ("json".data).isPrefixOf inner then inner.drop 4 else inner
    pyStrip inner2
  else t

/-- The deterministic tail of `generate_questions_with_gemini`
(QuestionGen/generator/views.py, lines 144-163) as a function of the
model's reply text: strip an optional code fence, `json.loads` the rest
and return the parsed value; any parse failure is caught and an empty
list is returned. -/
def generate_questions_result (reply : List Char) : Json :=
  match json_loads (strip_code_fences reply) with
  | some j => j
  | none => Json.arr []

/-!
Validators (QuestionGen/generator/validators.py), the topic derivation of
the upload view (`os.path.splitext(study_file.name)[0]`), and the record
creation loop of `upload` (QuestionGen/generator/views.py, lines 287-310).
The enumerations come from QuestionGen/generator/models.py.
-/

def DIFFICULTY_CHOICES : List String := ["Easy", "Medium", "Hard"]

def QUESTION_TYPE_CHOICES : List String := ["MCQ", "TF", "SHORT", "LONG", "NUMERICAL"]

/-- `validate_difficulty`: returns the input or raises (modelled `none`). -/
def validate_difficulty (d : String) : Option String :=
  if d ∈ DIFFICULTY_CHOICES then some d else none

/-- `validate_question_type`: note the valid list includes `MIXED`, which
is not among the model's `QUESTION_TYPE_CHOICES`. -/
def validate_question_type (q : String) : Option String :=
  if q ∈ ["MCQ", "TF", "SHORT", "LONG", "NUMERICAL", "MIXED"] then some q else none

/-- `validate_num_questions` on an already-numeric input. -/
def validate_num_questions (n : Int) : Option Int :=
  if 1 ≤ n ∧ n ≤ 50 then some n else none

/-- The root part of `os.path.splitext` on a bare file name: split at the
last dot, except that a dot inside the leading run of dots starts no
extension. -/
def splitextTailLen (name : List Char) : Nat :=
  (name.reverse.takeWhile (fun c => c ≠ '.')).length

def splitextRoot (name : List Char) : List Char :=
  if splitextTailLen name = name.length then name
  else if (name.take (name.length - splitextTailLen name - 1)).all (fun c => c = '.') then
    name
  else name.take (name.length - splitextTailLen name - 1)

/-- `dict.get(k, d)` on a parsed JSON object: Python keeps the last of
duplicate keys, hence the lookup on the reversed field list. -/
def dictGet (fs : List (List Char × Json)) (k : List Char) (d : Json) : Json :=
  match fs.reverse.lookup k with
  | some v => v
  | none => d

/-- Python's `str()` of a parsed JSON value.  The rendering of nested
containers is a placeholder: no claim inspects those strings. -/
def pyStrOf : Json → List Char
  | .null => "None".data
  | .bool true => "True".data
  | .bool false => "False".data
  | .num n => (toString n).data
  | .fnum lex => lex
  | .str s => s
  | .arr _ => "[...]".data
  | .obj _ => "\x7b...\x7d".data

/-- The answer normalization of the upload loop: a dict answer becomes
`'\n'.join(f"..." for k, v in ...)`, anything else goes through `str()`. -/
def answerStr : Json → List Char
  | .obj fs =>
    List.intercalate ['\n'] (fs.map (fun f => f.1 ++ ": ".data ++ pyStrOf f.2))
  | j => pyStrOf j

/-- One persisted `Question` record (QuestionGen/generator/models.py; the
`explanation` field exists only in the earlier generator/models.py schema
and is empty for records of the new pipeline).  `question_type` and
`marks` store exactly what the reply item supplied. -/
structure Question where
  text : String
  answer : String
  explanation : String
  topic : String
  difficulty : String
  question_type : Json
  marks : Json

/-- One iteration of the `for q_data in questions_data` loop of `upload`:
a non-object item makes `q_data.get` raise, which aborts the request
(modelled `none`). -/
def createQuestion (topic : List Char) (difficulty qtype : String) : Json → Option Question
  | .obj fs =>
    let q_text := dictGet fs "question".data (Json.str [])
    let q_answer := dictGet fs "answer".data (Json.str [])
    some
      { text := ⟨pyStrOf q_text⟩
        answer := ⟨answerStr q_answer⟩
        explanation := ""
        topic := ⟨topic⟩
        difficulty := difficulty
        question_type := dictGet fs "type".data (Json.str qtype.data)
        marks := dictGet fs "marks".data (Json.num 1) }
  | _ => none

/-- The whole record-creation loop of `upload`: records are created one
at a time, so an exception partway leaves the earlier records persisted
(`false` marks the aborted request). -/
def upload_saved_questions (topic : List Char) (difficulty qtype : String) :
    List Json → List Question × Bool
  | [] => ([], true)
  | it :: rest =>
    match createQuestion topic difficulty qtype it with
    | some q =>
      let p := upload_saved_questions topic difficulty qtype rest
      (q :: p.1, p.2)
    | none => ([], false)

/-- The model-schema invariant "question kind is a member of its
enumerated set" as a predicate on a stored `question_type` value. -/
def questionTypeOk (j : Json) : Bool :=
  match j with
  | .str s => QUESTION_TYPE_CHOICES.contains ⟨s⟩
  | _ => false

/-- The invariant "marks is a positive integer" on a stored value. -/
def marksPositiveInt (j : Json) : Bool :=
  match j with
  | .num n => 0 < n
  | _ => false

/-!
The Document Composer: the ReportLab "story" built by `generate_pdf_file`
and `generate_notes_pdf`.  A story is a list of abstract blocks; the
`doc.build` call that turns it into bytes is the external renderer and is
not modelled.  Styles are identified by the `ParagraphStyle` names of the
source.
-/

inductive StoryBlock where
  | title (text : String)
  | spacer
  | paragraph (text : String) (style : String)
  | pageBreak

/-- Python's `x in ['MCQ', 'TF']`-style test on a stored JSON value
against a string literal. -/
def jsonEqStr (j : Json) (s : String) : Bool :=
  match j with
  | .str t => t = s.data
  | _ => false

/-- `sanitize_text_for_pdf(x).replace('\n', '<br/>')` as used on question
and answer texts. -/
def sanitizeForParagraph (s : String) : String :=
  ⟨replaceAll ['\n'] "<br/>".data (sanitizeChars s.data)⟩

/-- The blocks `generate_pdf_file` (QuestionGen/generator/utils.py,
lines 129-148) emits for question number `i` of `n`:
question paragraph, spacer, optional answer paragraph, spacer, and a
page break after every 2nd MCQ/TF question or every 4th question of any
other kind, never after the last. -/
def question_story_item (n : Nat) (includeAnswers : Bool) (i : Nat) (q : Question) :
    List StoryBlock :=
  [StoryBlock.paragraph
      ("<b>" ++ toString i ++ ". " ++ sanitizeForParagraph q.text ++ "</b>")
      "CustomQuestion",
    StoryBlock.spacer]
  ++ (if includeAnswers ∧ q.answer ≠ "" then
        [StoryBlock.paragraph
          ("<b>Answer:</b> " ++ sanitizeForParagraph q.answer) "CustomAnswer"]
      else [])
  ++ [StoryBlock.spacer]
  ++ (if jsonEqStr q.question_type "MCQ" ∨ jsonEqStr q.question_type "TF" then
        (if i % 2 = 0 ∧ i < n then [StoryBlock.pageBreak] else [])
      else
        (if i % 4 = 0 ∧ i < n then [StoryBlock.pageBreak] else []))

def question_story_loop (n : Nat) (includeAnswers : Bool) :
    Nat → List Question → List StoryBlock
  | _, [] => []
  | i, q :: qs =>
    question_story_item n includeAnswers i q
      ++ question_story_loop n includeAnswers (i + 1) qs

/-- The story of `generate_pdf_file(questions, topic, include_answers)`
(QuestionGen/generator/utils.py). -/
def generate_pdf_file (qs : List Question) (topic : String) (includeAnswers : Bool) :
    List StoryBlock :=
  [StoryBlock.title
      (topic ++ " - " ++ (if includeAnswers then "Questions & Answers" else "Questions Only")),
    StoryBlock.spacer]
  ++ question_story_loop qs.length includeAnswers 1 qs

/-- The step expansion of the earlier composer (generator/utils.py,
lines 94-107): `explanation.replace('Step ', '\nStep ').strip().split('\n')`,
each piece stripped, empty pieces dropped. -/
def old_explanation_steps (e : String) : List StoryBlock :=
  ((splitSeq ['\n'] (pyStrip (replaceAll "Step ".data "\nStep ".data e.data))).map
      pyStrip).foldr
    (fun st acc =>
      if st = [] then acc else StoryBlock.paragraph ⟨st⟩ "StepStyle" :: acc)
    []

/-- The per-question blocks of the earlier `generate_pdf_file`
(generator/utils.py, lines 79-114): numerical questions get a type label
and a page break after every 2nd question, others after every 3rd. -/
def old_question_story_item (n : Nat) (i : Nat) (q : Question) : List StoryBlock :=
  [StoryBlock.paragraph
      ("<b>" ++ toString i ++ ". " ++ q.text
        ++ (if jsonEqStr q.question_type "numerical" then " [Numerical]" else "")
        ++ "</b>")
      "CustomQuestion",
    StoryBlock.spacer]
  ++ (if q.answer ≠ "" then
        [StoryBlock.paragraph ("<b>Answer:</b> " ++ q.answer) "CustomAnswer"]
      else [])
  ++ (if q.explanation ≠ "" then
        StoryBlock.spacer
          :: StoryBlock.paragraph "<b>Step-by-Step Solution:</b>" "CustomExplanation"
          :: old_explanation_steps q.explanation
      else [])
  ++ [StoryBlock.spacer]
  ++ (if i % (if jsonEqStr q.question_type "numerical" then 2 else 3) = 0 ∧ i < n then
        [StoryBlock.pageBreak]
      else [])

def old_question_story_loop (n : Nat) : Nat → List Question → List StoryBlock
  | _, [] => []
  | i, q :: qs => old_question_story_item n i q ++ old_question_story_loop n (i + 1) qs

/-- The story of the earlier `generate_pdf_file(questions, topic)`
(generator/utils.py). -/
def old_generate_pdf_file (qs : List Question) (topic : String) : List StoryBlock :=
  [StoryBlock.title ("Generated Questions: " ++ topic), StoryBlock.spacer]
  ++ old_question_story_loop qs.length 1 qs

/-!
The Markup Classifier inside `generate_notes_pdf`
(QuestionGen/generator/utils.py, lines 268-318): each line of the notes
text is stripped, HTML-escaped, purged of non-renderable characters and
then classified by a prefix/keyword cascade.
-/

/-- `line.replace('&','&amp;').replace('<','&lt;').replace('>','&gt;')`. -/
def escapeHtml (l : List Char) : List Char :=
  replaceAll ['>'] "&gt;".data
    (replaceAll ['<'] "&lt;".data (replaceAll ['&'] "&amp;".data l))

/-- The character class kept by `re.sub(r'[^\x00-\x7FÀ-ſ]+', '', line)`. -/
def isRenderableNotes (c : Char) : Bool :=
  c.toNat ≤ 0x7f ∨ (0xc0 ≤ c.toNat ∧ c.toNat ≤ 0x17f)

def stripEmoji (l : List Char) : List Char :=
  l.filter isRenderableNotes

/-- Python's `str.upper()` on one character of the classifier's domain
(ASCII plus U+00C0-U+017F, the characters the emoji strip keeps).  The
map can expand: `ß` uppercases to `SS` and `ŉ` to `ʼN`; `ı` maps to `I`
and `ſ` to `S`; within Latin Extended-A the case pairs alternate parity
in the blocks below; characters with no uppercase form stay put. -/
def pyUpperChar (c : Char) : List Char :=
  let n := c.toNat
  if n = 0xdf then ['S', 'S']
  else if n = 0x131 then ['I']
  else if n = 0x149 then ['ʼ', 'N']
  else if n = 0xff then ['Ÿ']
  else if n = 0x17f then ['S']
  else if 0xe0 ≤ n ∧ n ≤ 0xfe ∧ n ≠ 0xf7 then [Char.ofNat (n - 0x20)]
  else if 0x100 ≤ n ∧ n ≤ 0x137 then
    if n % 2 = 1 then [Char.ofNat (n - 1)] else [c]
  else if 0x139 ≤ n ∧ n ≤ 0x148 then
    if n % 2 = 0 then [Char.ofNat (n - 1)] else [c]
  else if 0x14a ≤ n ∧ n ≤ 0x177 then
    if n % 2 = 1 then [Char.ofNat (n - 1)] else [c]
  else if 0x179 ≤ n ∧ n ≤ 0x17e then
    if n % 2 = 0 then [Char.ofNat (n - 1)] else [c]
  else [c.toUpper]

/-- Python's `str.upper()`, modelling `line.upper()` for the keyword
tests of the classifier. -/
def pyUpper (l : List Char) : List Char :=
  (l.map pyUpperChar).flatten

/-- Python's `pat in l` substring test (for non-empty `pat`). -/
def containsSeq (pat : List Char) : List Char → Bool
  | [] => pat.isEmpty
  | a :: s => pat.isPrefixOf (a :: s) || containsSeq pat s

/-- `line.startswith(('1.', '2.', ..., '9.'))` — note `'0.'` is absent
from the source tuple and multi-digit prefixes match none of its
entries. -/
def startsNumbered (l : List Char) : Bool :=
  "1.".data.isPrefixOf l ∨ "2.".data.isPrefixOf l ∨ "3.".data.isPrefixOf l
    ∨ "4.".data.isPrefixOf l ∨ "5.".data.isPrefixOf l ∨ "6.".data.isPrefixOf l
    ∨ "7.".data.isPrefixOf l ∨ "8.".data.isPrefixOf l ∨ "9.".data.isPrefixOf l

/-- The classification cascade of `generate_notes_pdf` applied to an
already stripped, escaped and emoji-purged line. -/
def classifyCore (line : List Char) : StoryBlock :=
  if "## ".data.isPrefixOf line then
    StoryBlock.paragraph ("<b>" ++ ⟨pyStrip (line.drop 3)⟩ ++ "</b>") "NotesHeading"
  else if "### ".data.isPrefixOf line then
    StoryBlock.paragraph ("<b>" ++ ⟨pyStrip (line.drop 4)⟩ ++ "</b>") "NotesSubheading"
  else if containsSeq "KEY POINT".data (pyUpper line) ∨ "**".data.isPrefixOf line then
    StoryBlock.paragraph ("<b>" ++ ⟨pyStrip (replaceAll "**".data [] line)⟩ ++ "</b>")
      "KeyPoint"
  else if containsSeq "FORMULA".data (pyUpper line) then
    StoryBlock.paragraph ⟨pyStrip line⟩ "Formula"
  else if containsSeq "TIP".data (pyUpper line) then
    StoryBlock.paragraph ("<i>" ++ ⟨pyStrip line⟩ ++ "</i>") "Tip"
  else if "*".data.isPrefixOf line ∨ "-".data.isPrefixOf line
      ∨ "-&gt;".data.isPrefixOf line then
    StoryBlock.paragraph
      ⟨if "-&gt;".data.isPrefixOf line then "-> ".data ++ pyStrip (line.drop 5)
        else line⟩
      "NotesBullet"
  else if startsNumbered line then
    StoryBlock.paragraph ⟨line⟩ "NotesBullet"
  else
    StoryBlock.paragraph ⟨line⟩ "NotesBody"

/-- The per-line handling of `generate_notes_pdf`: a blank line yields a
spacer, a line that strips down to nothing after escaping is discarded,
anything else is classified. -/
def process_notes_line (raw : List Char) : List StoryBlock :=
  let line := pyStrip raw
  if line = [] then [StoryBlock.spacer]
  else
    let line2 := pyStrip (stripEmoji (escapeHtml line))
    if line2 = [] then [] else [classifyCore line2]

/-- The story of `generate_notes_pdf(notes_text, title)`
(QuestionGen/generator/utils.py, lines 161-328). -/
def generate_notes_pdf (notes : String) (title : String) : List StoryBlock :=
  [StoryBlock.title ("Short Notes: " ++ title), StoryBlock.spacer]
    ++ ((splitSeq ['\n'] (sanitizeChars notes.data)).map process_notes_line).flatten

/-!
`download_notes_pdf` (QuestionGen/generator/views.py, lines 437-454).
-/

inductive HttpResponse where
  | badRequest (msg : String)
  | pdfAttachment (filename : String) (story : List StoryBlock)

/-- `download_notes_pdf`: an absent (or empty, hence falsy) session notes
string yields a 400 response before any PDF work; otherwise the notes PDF
is generated and attached. -/
def download_notes_pdf (sessionNotes : Option String) (sessionFilename : Option String) :
    HttpResponse :=
  let filename := sessionFilename.getD "notes"
  match sessionNotes with
  | none => HttpResponse.badRequest "No notes available. Please generate notes first."
  | some notes =>
    if notes = "" then
      HttpResponse.badRequest "No notes available. Please generate notes first."
    else
      HttpResponse.pdfAttachment ("short_notes_" ++ filename ++ ".pdf")
        (generate_notes_pdf notes filename)

/-!
The numeric-mix top-up policy.  Modelled from the spec: the generation
variant carrying this policy (classification of items as numeric, and a
second smaller request when under half the requested count are numeric)
appears in no file under src/ — both `generate_questions_with_gemini`
variants return the parsed batch directly — so the definitions below
follow §4.4 of the spec.
-/

/-- Modelled from the spec: one item of a generation batch. -/
structure GenItem where
  question : String
  answer : String

/-- Modelled from the spec: the fixed keyword set of the numeric
classifier ("solve, calculate, evaluate, unit words, etc."). -/
def numericKeywords : List String :=
  ["solve", "calculate", "evaluate", "compute", "find", "km", "kg", "m/s",
   "joule", "newton"]

/-- Modelled from the spec: an item is numeric when its body contains a
digit or a fixed keyword. -/
def isNumericItem (it : GenItem) : Bool :=
  it.question.data.any (fun c => '0' ≤ c ∧ c ≤ '9')
    ∨ numericKeywords.any (fun k => containsSeq k.data it.question.data)

/-- Modelled from the spec: the size of the top-up request. -/
def topUpRequestSize (count numericCount : Nat) : Nat :=
  max 1 (count / 2 - numericCount)

/-- Modelled from the spec (§4.4): after the initial batch, when fewer
than half the requested count of items are numeric, issue one additional
request of `max 1 (count / 2 - numeric)` numeric-only items (the returned
batch is a parameter: the external model is a black box), append up to
that many of them, and trim the result to the requested count.  Returns
the final batch and the size of the second request, `none` when no
second request is made. -/
def top_up_generate (initial : List GenItem) (count : Nat) (secondBatch : List GenItem) :
    List GenItem × Option Nat :=
  let numeric := (initial.filter isNumericItem).length
  if numeric < count / 2 then
    let need := topUpRequestSize count numeric
    ((initial ++ secondBatch.take need).take count, some need)
  else
    (initial.take count, none)

def mcqDemo : Question :=
  { text := "q", answer := "a", explanation := "", topic := "t",
    difficulty := "Easy", question_type := Json.str "MCQ".data,
    marks := Json.num 1 }

def mcqDemoList : List Question := List.replicate 7 mcqDemo

def numericalNewQ : Question :=
  { text := "q", answer := "", explanation := "", topic := "t",
    difficulty := "Hard", question_type := Json.str "NUMERICAL".data,
    marks := Json.num 2 }

def numericalOldQ : Question :=
  { text := "q", answer := "", explanation := "", topic := "t",
    difficulty := "Hard", question_type := Json.str "numerical".data,
    marks := Json.num 2 }

def topUpDemo : List GenItem :=
  [⟨"solve for x", ""⟩, ⟨"state the law", ""⟩, ⟨"why is the sky blue", ""⟩,
   ⟨"name the author", ""⟩, ⟨"describe the theory", ""⟩]

def topUpDemoSecond : List GenItem :=
  [⟨"compute 2+2", ""⟩, ⟨"evaluate 3*3", ""⟩, ⟨"calculate 5!", ""⟩]

theorem replaceAllAux_skip (pat val : List Char) :
    ∀ (k : Nat) (s : List Char),
      replaceAllAux pat val k s = replaceAllAux pat val 0 (List.drop k s) := by
  intro k
  induction k with
  | zero => intro s; rfl
  | succ k ih =>
    intro s
    cases s with
    | nil => rfl
    | cons a s => rw [replaceAllAux, ih s, List.drop_succ_cons]

theorem replaceAll_nil (pat val : List Char) : replaceAll pat val [] = [] := rfl

theorem replaceAll_cons (pat val : List Char) (a : Char) (s : List Char) :
    replaceAll pat val (a :: s) =
      if pat ≠ [] ∧ pat.isPrefixOf (a :: s) then
        val ++ replaceAll pat val (List.drop (pat.length - 1) s)
      else
        a :: replaceAll pat val s := by
  show replaceAllAux pat val 0 (a :: s) = _
  rw [replaceAllAux, replaceAllAux_skip]
  rfl

/-- Characters of the output of `replaceAll` come from the replacement
value or from the input. -/
theorem mem_replaceAll {c : Char} (pat val : List Char) :
    ∀ s : List Char, c ∈ replaceAll pat val s → c ∈ val ∨ c ∈ s
  | [] => by simp [replaceAll, replaceAllAux]
  | a :: s => by
    rw [replaceAll_cons]
    by_cases h : pat ≠ [] ∧ pat.isPrefixOf (a :: s)
    · rw [if_pos h]
      intro hc
      rcases List.mem_append.mp hc with hv | hr
      · exact Or.inl hv
      · rcases mem_replaceAll pat val _ hr with hv | hs
        · exact Or.inl hv
        · exact Or.inr (List.mem_cons_of_mem a (List.mem_of_mem_drop hs))
    · rw [if_neg h]
      intro hc
      rcases List.mem_cons.mp hc with rfl | hr
      · exact Or.inr (List.mem_cons_self _ _)
      · rcases mem_replaceAll pat val s hr with hv | hs
        · exact Or.inl hv
        · exact Or.inr (List.mem_cons_of_mem a hs)
  termination_by s => s.length
  decreasing_by
    · simp only [List.length_drop, List.length_cons]
      omega
    · simp only [List.length_cons]
      omega

theorem isPrefixOf_imp_append {p l : List Char} :
    p.isPrefixOf l = true → ∃ t, p ++ t = l := by
  induction p generalizing l with
  | nil => exact fun _ => ⟨l, rfl⟩
  | cons a as ih =>
    cases l with
    | nil => intro h; simp [List.isPrefixOf] at h
    | cons b bs =>
      intro h
      simp only [List.isPrefixOf, Bool.and_eq_true, beq_iff_eq] at h
      obtain ⟨t, ht⟩ := ih h.2
      exact ⟨t, by simp [h.1, ht]⟩

/-- If the pattern occurs nowhere in `s` (as a contiguous run), `replaceAll`
is the identity. -/
theorem replaceAll_eq_self (pat val : List Char) :
    ∀ s : List Char, (¬ ∃ x y, s = x ++ pat ++ y) → replaceAll pat val s = s
  | [] => fun _ => replaceAll_nil pat val
  | a :: s => by
    intro hno
    rw [replaceAll_cons]
    have hguard : ¬ (pat ≠ [] ∧ pat.isPrefixOf (a :: s)) := by
      rintro ⟨-, hp⟩
      obtain ⟨t, ht⟩ := isPrefixOf_imp_append hp
      exact hno ⟨[], t, by simp [ht]⟩
    rw [if_neg hguard]
    have htail : ¬ ∃ x y, s = x ++ pat ++ y := by
      rintro ⟨x, y, rfl⟩
      exact hno ⟨a :: x, y, by simp⟩
    rw [replaceAll_eq_self pat val s htail]
  termination_by s => s.length
  decreasing_by
    simp only [List.length_cons]
    omega

theorem singleton_isPrefixOf_cons (c a : Char) (s : List Char) :
    [c].isPrefixOf (a :: s) = (a = c : Bool) := by
  by_cases h : a = c
  · subst h
    simp [List.isPrefixOf]
  · have h2 : ¬ c = a := fun hc => h hc.symm
    simp [List.isPrefixOf, h, h2]

theorem replaceAll_single_cons (c : Char) (val : List Char) (a : Char) (s : List Char) :
    replaceAll [c] val (a :: s) =
      if a = c then val ++ replaceAll [c] val s else a :: replaceAll [c] val s := by
  rw [replaceAll_cons]
  by_cases h : a = c
  · rw [if_pos ⟨by simp, by simp [singleton_isPrefixOf_cons, h]⟩, if_pos h]
    simp
  · rw [if_neg, if_neg h]
    rintro ⟨-, hp⟩
    rw [singleton_isPrefixOf_cons] at hp
    exact h (by simpa using hp)

theorem not_mem_replaceAll_single {c : Char} {val : List Char} (hv : c ∉ val) :
    ∀ s : List Char, c ∉ replaceAll [c] val s := by
  intro s
  induction s with
  | nil => simp [replaceAll_nil]
  | cons a s ih =>
    rw [replaceAll_single_cons]
    by_cases h : a = c
    · rw [if_pos h]
      simp only [List.mem_append]
      rintro (hc | hc)
      · exact hv hc
      · exact ih hc
    · rw [if_neg h]
      simp only [List.mem_cons]
      rintro (rfl | hc)
      · exact h rfl
      · exact ih hc

theorem replaceAll_single_append (c : Char) (val : List Char) (x y : List Char) :
    replaceAll [c] val (x ++ y) =
      replaceAll [c] val x ++ replaceAll [c] val y := by
  induction x with
  | nil => simp [replaceAll_nil]
  | cons a x ih =>
    rw [List.cons_append, replaceAll_single_cons, replaceAll_single_cons]
    by_cases h : a = c
    · rw [if_pos h, if_pos h, ih, List.append_assoc]
    · rw [if_neg h, if_neg h, ih, List.cons_append]

theorem foldl_sanStep_not_mem {c : Char} :
    ∀ (rs : List (List Char × List Char)) (s : List Char),
      (∀ r ∈ rs, c ∉ r.2) → c ∉ s → c ∉ rs.foldl sanStep s := by
  intro rs
  induction rs with
  | nil => intro s _ hs; simpa using hs
  | cons r rest ih =>
    intro s hvals hs
    rw [List.foldl_cons]
    refine ih _ (fun r' hr' => hvals r' (List.mem_cons_of_mem r hr')) ?_
    intro hc
    rcases mem_replaceAll r.1 r.2 s hc with hv | hmem
    · exact hvals r (List.mem_cons_self r rest) hv
    · exact hs hmem

theorem foldl_sanStep_key_removed {c : Char} :
    ∀ (rs : List (List Char × List Char)) (s : List Char),
      (∃ r ∈ rs, r.1 = [c]) → (∀ r ∈ rs, c ∉ r.2) → c ∉ rs.foldl sanStep s := by
  intro rs
  induction rs with
  | nil => rintro s ⟨r, hr, -⟩ -; simp at hr
  | cons r rest ih =>
    rintro s ⟨r', hr', hpat⟩ hvals
    rcases List.mem_cons.mp hr' with rfl | hr'
    · rw [List.foldl_cons]
      refine foldl_sanStep_not_mem rest _
        (fun q hq => hvals q (List.mem_cons_of_mem _ hq)) ?_
      rw [sanStep, hpat]
      exact not_mem_replaceAll_single (hvals r' (List.mem_cons_self _ _)) s
    · rw [List.foldl_cons]
      exact ih _ ⟨r', hr', hpat⟩ (fun q hq => hvals q (List.mem_cons_of_mem r hq))

theorem foldl_sanStep_id {K : List Char} :
    ∀ (rs : List (List Char × List Char)) (t : List Char),
      (∀ r ∈ rs, ∃ c ∈ K, c ∈ r.1) → (∀ c ∈ K, c ∉ t) → rs.foldl sanStep t = t := by
  intro rs
  induction rs with
  | nil => intro t _ _; rfl
  | cons r rest ih =>
    intro t hpat ht
    obtain ⟨c, hcK, hcr⟩ := hpat r (List.mem_cons_self r rest)
    have hid : sanStep t r = t := by
      rw [sanStep]
      refine replaceAll_eq_self r.1 r.2 t ?_
      rintro ⟨x, y, rfl⟩
      exact ht c hcK (by simp [hcr])
    rw [List.foldl_cons, hid]
    exact ih t (fun q hq => hpat q (List.mem_cons_of_mem r hq)) ht

theorem foldl_sanStep_singles_append :
    ∀ (rs : List (List Char × List Char)),
      (∀ r ∈ rs, r.1.length = 1) →
      ∀ x y : List Char,
        rs.foldl sanStep (x ++ y) = rs.foldl sanStep x ++ rs.foldl sanStep y := by
  intro rs
  induction rs with
  | nil => intro _ x y; rfl
  | cons r rest ih =>
    intro hlen x y
    obtain ⟨c, hc⟩ := List.length_eq_one.mp (hlen r (List.mem_cons_self r rest))
    simp only [List.foldl_cons]
    rw [show sanStep (x ++ y) r = sanStep x r ++ sanStep y r by
          rw [sanStep, sanStep, sanStep, hc, replaceAll_single_append]]
    exact ih (fun q hq => hlen q (List.mem_cons_of_mem r hq)) _ _

theorem keyChars_removed :
    ∀ c ∈ keyChars, (∃ r ∈ rules, r.1 = [c]) ∧ ∀ r ∈ rules, c ∉ r.2 := by
  decide

theorem rules_pattern_has_key : ∀ r ∈ rules, ∃ c ∈ keyChars, c ∈ r.1 := by
  decide

theorem keyChars_not_mem_sanitize (c : Char) (hc : c ∈ keyChars) (s : List Char) :
    c ∉ sanitizeChars s :=
  foldl_sanStep_key_removed rules s (keyChars_removed c hc).1 (keyChars_removed c hc).2

theorem sanitizeChars_idem (s : List Char) :
    sanitizeChars (sanitizeChars s) = sanitizeChars s :=
  foldl_sanStep_id rules (sanitizeChars s) rules_pattern_has_key
    (fun c hc => keyChars_not_mem_sanitize c hc s)

theorem rules_eq_parts : rules = rulesHead ++ rulesBraKet ++ rulesTail := by
  simp [rules, replacements, rulesHead, rulesBraKet, rulesTail]

theorem rulesHead_singles : ∀ r ∈ rulesHead, r.1.length = 1 := by decide

theorem rulesTail_singles : ∀ r ∈ rulesTail, r.1.length = 1 := by decide

theorem rulesHead_has_rangle : ∃ r ∈ rulesHead, r.1 = ['⟩'] := by decide

theorem rulesHead_vals_no_rangle : ∀ r ∈ rulesHead, '⟩' ∉ r.2 := by decide

theorem rulesBraKet_has_rangle : ∀ r ∈ rulesBraKet, ∃ c ∈ ['⟩'], c ∈ r.1 := by
  decide

theorem rangle_not_mem_headFold (s : List Char) :
    '⟩' ∉ rulesHead.foldl sanStep s :=
  foldl_sanStep_key_removed rulesHead s rulesHead_has_rangle rulesHead_vals_no_rangle

theorem braKetFold_id {t : List Char} (ht : '⟩' ∉ t) :
    rulesBraKet.foldl sanStep t = t :=
  foldl_sanStep_id rulesBraKet t rulesBraKet_has_rangle
    (by intro c hc; rcases List.mem_singleton.mp hc with rfl; exact ht)

/-- `sanitize_text_for_pdf` distributes over concatenation: every rule
whose pattern is longer than one character contains `⟩`, which the
earlier `⟩ → >` rule has already eliminated, so the whole fold acts
character by character. -/
theorem sanitizeChars_append (x y : List Char) :
    sanitizeChars (x ++ y) = sanitizeChars x ++ sanitizeChars y := by
  unfold sanitizeChars
  rw [rules_eq_parts]
  simp only [List.foldl_append]
  rw [foldl_sanStep_singles_append rulesHead rulesHead_singles x y]
  rw [braKetFold_id (t := rulesHead.foldl sanStep x ++ rulesHead.foldl sanStep y)
        (by
          intro hmem
          rcases List.mem_append.mp hmem with h | h
          · exact rangle_not_mem_headFold x h
          · exact rangle_not_mem_headFold y h)]
  rw [braKetFold_id (rangle_not_mem_headFold x),
      braKetFold_id (rangle_not_mem_headFold y)]
  exact foldl_sanStep_singles_append rulesTail rulesTail_singles _ _

theorem sanitize_text_for_pdf_eq_mk (s : String) :
    sanitize_text_for_pdf s = ⟨sanitizeChars s.data⟩ := rfl

theorem string_data_mk (l : List Char) : (String.mk l).data = l := rfl

theorem sanitize_text_for_pdf_data (s : String) :
    (sanitize_text_for_pdf s).data = sanitizeChars s.data := by
  rw [sanitize_text_for_pdf_eq_mk, string_data_mk]

/-- C4: the Text Normalizer `sanitize_text_for_pdf` is idempotent: for
every input string `s`, applying it twice yields the same result as
applying it once. -/
theorem sanitize_text_for_pdf_idempotent (s : String) :
    sanitize_text_for_pdf (sanitize_text_for_pdf s) = sanitize_text_for_pdf s := by
  apply String.ext
  rw [sanitize_text_for_pdf_data, sanitize_text_for_pdf_data]
  exact sanitizeChars_idem s.data

set_option maxHeartbeats 2000000 in
theorem sanitizeChars_braket_token :
    sanitizeChars "|ψ⟩".data = "|psi>".data := by decide

/-- C5: for every input string containing the bra-ket token `|ψ⟩`, the
Text Normalizer maps that token to exactly `|psi>` in the output (and
normalizes the surrounding text independently, with no partial
corruption from nested substitution). -/
theorem sanitize_braket_token (a b : String) :
    sanitize_text_for_pdf (a ++ "|ψ⟩" ++ b) =
      sanitize_text_for_pdf a ++ "|psi>" ++ sanitize_text_for_pdf b := by
  apply String.ext
  simp only [String.data_append, sanitize_text_for_pdf_data]
  rw [sanitizeChars_append, sanitizeChars_append, sanitizeChars_braket_token]

/-- C9 counterexample: the reply `\x7b\x7d` (an empty JSON object) cannot
be parsed as a JSON array, yet `generate_questions_with_gemini` returns
the parsed object as-is, not an empty sequence: the `isinstance(..., list)`
check of `extract_topics_with_gemini` has no counterpart here. -/
theorem generate_questions_nonarray_cex :
    json_loads (strip_code_fences "\x7b\x7d".data) = some (Json.obj []) ∧
    generate_questions_result "\x7b\x7d".data = Json.obj [] ∧
    Json.obj [] ≠ Json.arr [] := by
  refine ⟨rfl, rfl, ?_⟩
  intro h
  exact Json.noConfusion h

/-- C9 amended: for every model reply on which JSON parsing fails outright
(after stripping an optional triple-backtick fence, optionally tagged
`json`), the question generator does not raise: it logs the failure and
returns an empty sequence; a reply that parses to a non-array JSON value
is instead returned as parsed. -/
theorem generate_questions_parse_failure_empty (reply : List Char)
    (h : json_loads (strip_code_fences reply) = none) :
    generate_questions_result reply = Json.arr [] := by
  unfold generate_questions_result
  rw [h]

theorem generate_questions_parse_failure_empty_witness :
    generate_questions_result "not json".data = Json.arr [] :=
  generate_questions_parse_failure_empty "not json".data rfl

/-- C2 counterexample: a parsed reply of 2 object items with requested
count `n = 1` (a valid request) is persisted in full: 2 records, not
trimmed to 1. -/
theorem upload_no_trim_cex :
    validate_num_questions 1 = some 1 ∧
    (upload_saved_questions "doc".data "Easy" "SHORT"
        [Json.obj [], Json.obj []]).1.length = 2 ∧
    ¬ (upload_saved_questions "doc".data "Easy" "SHORT"
        [Json.obj [], Json.obj []]).1.length ≤ 1 := by
  refine ⟨rfl, rfl, ?_⟩
  decide

/-- C2 amended: the number of persisted records equals the number of
parsed reply items (one record per item, no trimming to the requested
count and no synthetic padding), whenever every item is a JSON object;
in particular, it can exceed the requested count. -/
theorem upload_persists_every_item (topic : List Char) (difficulty qtype : String)
    (items : List Json) (h : ∀ it ∈ items, ∃ fs, it = Json.obj fs) :
    (upload_saved_questions topic difficulty qtype items).1.length = items.length ∧
    (upload_saved_questions topic difficulty qtype items).2 = true := by
  induction items with
  | nil => exact ⟨rfl, rfl⟩
  | cons it rest ih =>
    obtain ⟨fs, rfl⟩ := h _ (List.mem_cons_self it rest)
    obtain ⟨ih1, ih2⟩ := ih (fun x hx => h x (List.mem_cons_of_mem _ hx))
    refine ⟨?_, ?_⟩
    · show ((upload_saved_questions topic difficulty qtype rest).1.length + 1) = _
      rw [ih1, List.length_cons]
    · exact ih2

theorem upload_persists_every_item_witness :
    (upload_saved_questions "doc".data "Medium" "LONG"
        [Json.obj [], Json.obj [], Json.obj []]).1.length =
      ([Json.obj [], Json.obj [], Json.obj []] : List Json).length ∧
    (upload_saved_questions "doc".data "Medium" "LONG"
        [Json.obj [], Json.obj [], Json.obj []]).2 = true := by
  refine upload_persists_every_item _ _ _ _ ?_
  intro it hit
  rcases List.mem_cons.mp hit with rfl | hit2
  · exact ⟨[], rfl⟩
  rcases List.mem_cons.mp hit2 with rfl | hit3
  · exact ⟨[], rfl⟩
  rcases List.mem_cons.mp hit3 with rfl | hit4
  · exact ⟨[], rfl⟩
  simp at hit4

theorem splitextRoot_ne_nil {name : List Char} (h : name ≠ []) :
    splitextRoot name ≠ [] := by
  unfold splitextRoot
  split
  · exact h
  · split
    · exact h
    next hall =>
      intro hnil
      rw [hnil] at hall
      exact hall rfl

/-- C3 counterexample: a reply item supplying `type` and `marks` fields
is stored verbatim: the record created from
`\x7b"type": "BOGUS", "marks": 0\x7d` carries a question kind outside the
model's enumerated set and a non-positive marks value. -/
theorem question_record_cex :
    createQuestion (splitextRoot "notes.txt".data) "Easy" "SHORT"
        (Json.obj [("type".data, Json.str "BOGUS".data),
                   ("marks".data, Json.num 0)]) =
      some
        { text := "", answer := "", explanation := "", topic := "notes",
          difficulty := "Easy", question_type := Json.str "BOGUS".data,
          marks := Json.num 0 } ∧
    questionTypeOk (Json.str "BOGUS".data) = false ∧
    marksPositiveInt (Json.num 0) = false := by
  exact ⟨rfl, rfl, rfl⟩

/-- C3 amended: for records of the upload path, the validated difficulty
is always a member of its enumerated set and the topic (the uploaded
filename with its extension stripped) is always non-empty; the stored
kind and marks, however, are taken verbatim from the reply item, so they
are a valid enum member and a positive integer only when the item omits
them (falling back to the validated kind and the default marks of 1) or
supplies valid values itself. -/
theorem question_record_invariants (filename : List Char) (d qt : String)
    (fs : List (List Char × Json)) (q : Question)
    (hfile : filename ≠ [])
    (hd : validate_difficulty d = some d)
    (hqt : qt ∈ QUESTION_TYPE_CHOICES)
    (htype : fs.reverse.lookup "type".data = none)
    (hmarks : fs.reverse.lookup "marks".data = none)
    (hq : createQuestion (splitextRoot filename) d qt (Json.obj fs) = some q) :
    q.difficulty ∈ DIFFICULTY_CHOICES ∧ q.topic ≠ "" ∧
    questionTypeOk q.question_type = true ∧ marksPositiveInt q.marks = true := by
  have hrec := Option.some.inj hq
  subst hrec
  refine ⟨?_, ?_, ?_, ?_⟩
  · by_cases hmem : d ∈ DIFFICULTY_CHOICES
    · exact hmem
    · rw [validate_difficulty, if_neg hmem] at hd
      exact absurd hd (by simp)
  · show String.mk (splitextRoot filename) ≠ ""
    intro hcon
    have : splitextRoot filename = [] := congrArg String.data hcon
    exact splitextRoot_ne_nil hfile this
  · show questionTypeOk (dictGet fs "type".data (Json.str qt.data)) = true
    rw [dictGet, htype]
    show QUESTION_TYPE_CHOICES.contains (String.mk qt.data) = true
    have hqq : String.mk qt.data = qt := by cases qt; rfl
    rw [hqq]
    fin_cases hqt <;> rfl
  · show marksPositiveInt (dictGet fs "marks".data (Json.num 1)) = true
    rw [dictGet, hmarks]
    rfl

theorem question_record_invariants_witness :
    ({ text := "", answer := "", explanation := "", topic := "notes",
       difficulty := "Easy", question_type := Json.str "SHORT".data,
       marks := Json.num 1 } : Question).difficulty ∈ DIFFICULTY_CHOICES ∧
    ({ text := "", answer := "", explanation := "", topic := "notes",
       difficulty := "Easy", question_type := Json.str "SHORT".data,
       marks := Json.num 1 } : Question).topic ≠ "" ∧
    questionTypeOk (Json.str "SHORT".data) = true ∧
    marksPositiveInt (Json.num 1) = true :=
  question_record_invariants "notes.txt".data "Easy" "SHORT" [] _
    (by decide) rfl (by simp [QUESTION_TYPE_CHOICES]) rfl rfl rfl

/-- Where a page break can occur in the blocks of one question: exactly
when the source's density condition holds. -/
theorem pageBreak_mem_item (n : Nat) (ans : Bool) (i : Nat) (q : Question) :
    StoryBlock.pageBreak ∈ question_story_item n ans i q ↔
      (if jsonEqStr q.question_type "MCQ" = true ∨ jsonEqStr q.question_type "TF" = true
       then i % 2 = 0 ∧ i < n
       else i % 4 = 0 ∧ i < n) := by
  unfold question_story_item
  by_cases h1 : ans ∧ q.answer ≠ "" <;>
    by_cases h2 : jsonEqStr q.question_type "MCQ" = true ∨ jsonEqStr q.question_type "TF" = true <;>
      by_cases h3 : i % 2 = 0 ∧ i < n <;>
        by_cases h4 : i % 4 = 0 ∧ i < n <;>
          simp [h1, h2, h3, h4]

theorem mem_old_explanation_steps {b : StoryBlock} {e : String}
    (hb : b ∈ old_explanation_steps e) :
    ∃ t, b = StoryBlock.paragraph t "StepStyle" := by
  unfold old_explanation_steps at hb
  generalize (splitSeq ['\n']
    (pyStrip (replaceAll "Step ".data "\nStep ".data e.data))).map pyStrip = L at hb
  induction L with
  | nil => simp at hb
  | cons st rest ih =>
    rw [List.foldr_cons] at hb
    by_cases hst : st = []
    · rw [if_pos hst] at hb
      exact ih hb
    · rw [if_neg hst] at hb
      rcases List.mem_cons.mp hb with rfl | hb2
      · exact ⟨⟨st⟩, rfl⟩
      · exact ih hb2

/-- Where a page break can occur in one question of the earlier
composer. -/
theorem pageBreak_mem_old_item (n i : Nat) (q : Question) :
    StoryBlock.pageBreak ∈ old_question_story_item n i q ↔
      (i % (if jsonEqStr q.question_type "numerical" = true then 2 else 3) = 0 ∧ i < n) := by
  unfold old_question_story_item
  constructor
  · intro hmem
    simp only [List.mem_append] at hmem
    rcases hmem with (((hA | hB) | hC) | hD) | hE
    · exfalso
      simp at hA
    · exfalso
      by_cases h1b : q.answer ≠ "" <;> simp [h1b] at hB
    · exfalso
      by_cases h2b : q.explanation ≠ "" <;> simp [h2b] at hC
      obtain ⟨t, ht⟩ := mem_old_explanation_steps hC
      simp at ht
    · exfalso
      simp at hD
    · by_cases h4b : i % (if jsonEqStr q.question_type "numerical" = true then 2 else 3) = 0 ∧ i < n
      · exact h4b
      · exfalso
        rw [if_neg h4b] at hE
        simp at hE
  · intro hcond
    simp only [List.mem_append]
    refine Or.inr ?_
    rw [if_pos hcond]
    exact List.mem_singleton.mpr rfl

/-- C6: composing a document from 7 MCQ-kind records with answers
requested inserts a page-break hint after items 2, 4 and 6 and after no
other item (in particular never after the final, 7th item); the story is
the title and spacer followed by the per-question blocks in input
order. -/
theorem mcq_page_breaks (qs : List Question) (topic : String)
    (h7 : qs.length = 7)
    (hall : ∀ q ∈ qs, q.question_type = Json.str "MCQ".data)
    (i : Nat) (q : Question) (hget : qs.get? (i - 1) = some q) (h1 : 1 ≤ i) :
    (StoryBlock.pageBreak ∈ question_story_item qs.length true i q ↔
      (i = 2 ∨ i = 4 ∨ i = 6)) ∧
    generate_pdf_file qs topic true =
      [StoryBlock.title (topic ++ " - " ++ "Questions & Answers"), StoryBlock.spacer]
        ++ question_story_loop qs.length true 1 qs := by
  have hqmem : q ∈ qs := List.get?_mem hget
  have hq := hall q hqmem
  have hlt : i - 1 < qs.length := by
    rcases List.get?_eq_some.mp hget with ⟨hh, -⟩
    exact hh
  constructor
  · rw [pageBreak_mem_item]
    have hmcq : jsonEqStr q.question_type "MCQ" = true := by rw [hq]; rfl
    rw [if_pos (Or.inl hmcq)]
    rw [h7] at hlt ⊢
    omega
  · simp [generate_pdf_file]

theorem mcq_page_breaks_witness :
    (StoryBlock.pageBreak ∈ question_story_item mcqDemoList.length true 2 mcqDemo ↔
      ((2 : Nat) = 2 ∨ (2 : Nat) = 4 ∨ (2 : Nat) = 6)) ∧
    generate_pdf_file mcqDemoList "t" true =
      [StoryBlock.title ("t" ++ " - " ++ "Questions & Answers"), StoryBlock.spacer]
        ++ question_story_loop mcqDemoList.length true 1 mcqDemoList :=
  mcq_page_breaks mcqDemoList "t" rfl
    (fun q hq => by
      rw [List.eq_of_mem_replicate hq]
      rfl)
    2 mcqDemo rfl (by decide)

/-- C7 counterexample: in the current composer
(QuestionGen/generator/utils.py) a NUMERICAL-kind question falls into the
every-4th branch, so for question 2 of 3 — where the claim requires a
break after every 2nd question — no page break is emitted. -/
theorem numerical_break_cex :
    StoryBlock.pageBreak ∉ question_story_item 3 true 2 numericalNewQ ∧
    (2 : Nat) % 2 = 0 ∧ (2 : Nat) < 3 := by
  refine ⟨?_, rfl, by decide⟩
  rw [pageBreak_mem_item]
  have h1 : jsonEqStr numericalNewQ.question_type "MCQ" = false := rfl
  have h2 : jsonEqStr numericalNewQ.question_type "TF" = false := rfl
  rw [if_neg]
  · decide
  · rintro (h | h)
    · rw [h1] at h
      exact Bool.false_ne_true h
    · rw [h2] at h
      exact Bool.false_ne_true h

/-- C7 amended: in the current composer numerical-kind records get a
page-break hint after every 4th question (never after the final item);
the break after every 2nd numerical question belongs to the earlier
composer variant (generator/utils.py). -/
theorem numerical_page_breaks (n i : Nat) (q qOld : Question)
    (hq : q.question_type = Json.str "NUMERICAL".data)
    (hqOld : qOld.question_type = Json.str "numerical".data) :
    (StoryBlock.pageBreak ∈ question_story_item n true i q ↔ i % 4 = 0 ∧ i < n) ∧
    (StoryBlock.pageBreak ∈ old_question_story_item n i qOld ↔ i % 2 = 0 ∧ i < n) := by
  constructor
  · rw [pageBreak_mem_item, if_neg]
    rintro (h | h)
    · rw [hq] at h
      exact Bool.false_ne_true h
    · rw [hq] at h
      exact Bool.false_ne_true h
  · rw [pageBreak_mem_old_item]
    have : jsonEqStr qOld.question_type "numerical" = true := by rw [hqOld]; rfl
    rw [this]
    simp

theorem numerical_page_breaks_witness :
    (StoryBlock.pageBreak ∈ question_story_item 5 true 4 numericalNewQ ↔
      (4 : Nat) % 4 = 0 ∧ (4 : Nat) < 5) ∧
    (StoryBlock.pageBreak ∈ old_question_story_item 5 4 numericalOldQ ↔
      (4 : Nat) % 2 = 0 ∧ (4 : Nat) < 5) :=
  numerical_page_breaks 5 4 numericalNewQ numericalOldQ rfl rfl

/-- C8 counterexample: the source tuple `('1.', ..., '9.')` omits `'0.'`
and matches no multi-digit ordinal, so the lines `0. zero` and `10. ten`
are classified as plain body text, not as numbered items with bullet
styling. -/
theorem numbered_zero_ten_cex :
    classifyCore "0. zero".data = StoryBlock.paragraph "0. zero" "NotesBody" ∧
    classifyCore "10. ten".data = StoryBlock.paragraph "10. ten" "NotesBody" :=
  ⟨rfl, rfl⟩

/-- C8 amended: every trimmed, non-empty line starting with a single
digit 1-9 followed by a period, on which no higher-priority rule fires,
is classified as a numbered item rendered with bullet styling; lines
starting with `0.` or a multi-digit ordinal fall through to plain body
text. -/
theorem numbered_line_classified (d : Char) (rest : List Char)
    (hd : d ∈ ['1', '2', '3', '4', '5', '6', '7', '8', '9'])
    (hkp : containsSeq "KEY POINT".data (pyUpper (d :: '.' :: rest)) = false)
    (hf : containsSeq "FORMULA".data (pyUpper (d :: '.' :: rest)) = false)
    (ht : containsSeq "TIP".data (pyUpper (d :: '.' :: rest)) = false) :
    classifyCore (d :: '.' :: rest) =
      StoryBlock.paragraph ⟨d :: '.' :: rest⟩ "NotesBullet" := by
  fin_cases hd <;>
    simp +decide [classifyCore, startsNumbered, List.isPrefixOf_cons₂,
      List.isPrefixOf_nil_left, hkp, hf, ht]

theorem numbered_line_classified_witness :
    classifyCore ('1' :: '.' :: " item".data) =
      StoryBlock.paragraph ⟨'1' :: '.' :: " item".data⟩ "NotesBullet" :=
  numbered_line_classified '1' " item".data (by decide) rfl rfl rfl

/-- C10: when the session holds no notes string, `download_notes_pdf`
returns the 400-class response with its descriptive message and builds
no PDF story at all; a PDF attachment can only arise from a present
notes string. -/
theorem download_notes_no_session (notes : Option String) (fn : Option String)
    (h : notes = none) :
    download_notes_pdf notes fn =
      HttpResponse.badRequest "No notes available. Please generate notes first." ∧
    ∀ name story, download_notes_pdf notes fn ≠ HttpResponse.pdfAttachment name story := by
  subst h
  refine ⟨rfl, ?_⟩
  intro name story hcon
  exact HttpResponse.noConfusion hcon

theorem download_notes_no_session_witness :
    download_notes_pdf none (some "doc") =
      HttpResponse.badRequest "No notes available. Please generate notes first." :=
  (download_notes_no_session none (some "doc") rfl).1

/-- C1 (modelled from the spec, §4.4): for an initial batch of 5 items of
which exactly 1 is numeric and a requested count of 6, the top-up policy
issues exactly one additional request for `max(1, 6//2 - 1) = 2` numeric
items, appends up to that many of the returned items, and the final
batch has size at most 6. -/
theorem top_up_policy (initial secondBatch : List GenItem)
    (_h5 : initial.length = 5)
    (h1 : (initial.filter isNumericItem).length = 1) :
    (top_up_generate initial 6 secondBatch).2 = some 2 ∧
    (top_up_generate initial 6 secondBatch).1 =
      (initial ++ secondBatch.take 2).take 6 ∧
    (top_up_generate initial 6 secondBatch).1.length ≤ 6 := by
  unfold top_up_generate
  rw [h1]
  norm_num [topUpRequestSize]

theorem top_up_policy_witness :
    (top_up_generate topUpDemo 6 topUpDemoSecond).2 = some 2 ∧
    (top_up_generate topUpDemo 6 topUpDemoSecond).1 =
      (topUpDemo ++ topUpDemoSecond.take 2).take 6 ∧
    (top_up_generate topUpDemo 6 topUpDemoSecond).1.length ≤ 6 :=
  top_up_policy topUpDemo topUpDemoSecond rfl (by decide)

end Qurio
